import Mathlib

/-!
Verification of `google-maps-scraper` (singapore pipeline):
`src/singapore/dedup_results.py` and `src/singapore/generate_singapore_grid.py`.

The embedding is shallow: Python string fields become `String`, the CSV row
becomes a `Record` carrying the four fields the deduplicator reads
(`row.get(field, "")` with empty-string default), Python's `str.strip()` is
modelled by `strip` below (leading/trailing whitespace removal), the `seen`
set becomes a `List String` used only through membership, and the grid
generator's float arithmetic is idealized over `ℚ` with its `while` loops
given explicit fuel (`none` = the loop did not finish within the fuel).
-/

set_option autoImplicit false

/-- One CSV row as read by `dedup_results.py`: only the four fields consulted
by the key derivation are modelled; `row.get(f, "")` yields `""` for a missing
field, which is the default value here. -/
structure Record where
  data_id : String := ""
  title : String := ""
  latitude : String := ""
  longitude : String := ""
deriving DecidableEq

/-- Python's `str.strip()` on the character list: drop leading and trailing
whitespace characters. -/
def stripList (l : List Char) : List Char :=
  ((l.dropWhile Char.isWhitespace).reverse.dropWhile Char.isWhitespace).reverse

/-- Python's `str.strip()` (no-argument form): remove leading and trailing
whitespace.  (Python also strips some further Unicode space characters; only
ASCII whitespace is relevant to this development.) -/
def strip (s : String) : String := String.mk (stripList s.data)

/-- Key derivation, from the body of `dedup` (dedup_results.py lines 39-52):
primary key `"did:" ++ data_id.strip()` when nonempty, else fallback
`"tloc:" ++ title.strip() ++ "|" ++ lat.strip() ++ "|" ++ lon.strip()` when all
three nonempty, else no key (`none`). -/
def derive_key (row : Record) : Option String :=
  let data_id := strip row.data_id
  if data_id ≠ "" then
    some ("did:" ++ data_id)
  else
    let title := strip row.title
    let lat := strip row.latitude
    let lon := strip row.longitude
    if title ≠ "" ∧ lat ≠ "" ∧ lon ≠ "" then
      some ("tloc:" ++ title ++ "|" ++ lat ++ "|" ++ lon)
    else
      none

/-- The state threaded through the row loop of `dedup` (dedup_results.py
lines 19-26): the `seen` set (modelled as a list consulted only via `∈`),
the four counters, and the retained rows. -/
structure DedupState where
  seen : List String
  rows_total : Nat
  rows_kept : Nat
  rows_dup : Nat
  rows_no_key : Nat
  kept_rows : List Record
deriving DecidableEq

/-- Initial state of a `dedup` pass (dedup_results.py lines 19-25). -/
def initState : DedupState := ⟨[], 0, 0, 0, 0, []⟩

/-- One iteration of the row loop of `dedup` (dedup_results.py lines 36-61):
bump the total, derive the key; no key ⇒ count `rows_no_key`; key already
seen ⇒ count `rows_dup`; otherwise record the key as seen, count the row as
kept and (unless `stats_only`) append it to the output. -/
def dedup_step (stats_only : Bool) (s : DedupState) (row : Record) : DedupState :=
  match derive_key row with
  | none =>
      { s with rows_total := s.rows_total + 1, rows_no_key := s.rows_no_key + 1 }
  | some key =>
      if key ∈ s.seen then
        { s with rows_total := s.rows_total + 1, rows_dup := s.rows_dup + 1 }
      else
        { s with rows_total := s.rows_total + 1,
                 seen := key :: s.seen,
                 rows_kept := s.rows_kept + 1,
                 kept_rows := if stats_only then s.kept_rows else s.kept_rows ++ [row] }

/-- The streaming pass of `dedup` (dedup_results.py lines 36-61) over an
in-memory row sequence. -/
def dedup (records : List Record) (stats_only : Bool) : DedupState :=
  records.foldl (dedup_step stats_only) initState

/-- Follows the spec's words (§4.4 / §8): first-occurrence-wins retention —
keep a row iff it has a derivable key that has not occurred before, in input
order.  This is the specification-side description that `dedup`'s
`kept_rows` is compared against. -/
def keepFirst (seen : List String) : List Record → List Record
  | [] => []
  | r :: rs =>
    match derive_key r with
    | none => keepFirst seen rs
    | some k => if k ∈ seen then keepFirst seen rs else r :: keepFirst (k :: seen) rs

/-! ## Grid generator (`generate_singapore_grid.py`)

Coordinates are idealized over `ℚ` (the Python code computes with binary
floats; the algorithms themselves are exact arithmetic plus comparisons).
-/

/-- A `(lat, lon)` vertex or grid point. -/
abbrev Pt := ℚ × ℚ

/-- One iteration of the edge loop of `point_in_polygon`
(generate_singapore_grid.py lines 113-118): the edge is the pair
`((yi, xi), (yj, xj))`; toggle `inside` when the point's latitude lies
strictly between the two vertex latitudes (in the `(yi > lat) != (yj > lat)`
sense) and the point's longitude is west of the edge's longitude at that
latitude.  (In `ℚ`, division by zero yields `0`; the claim that the divisor
is nonzero whenever the first conjunct holds is proved below.) -/
def crossStep (lat lon : ℚ) (inside : Bool) (e : Pt × Pt) : Bool :=
  let yi := e.1.1
  let xi := e.1.2
  let yj := e.2.1
  let xj := e.2.2
  if (decide (yi > lat) != decide (yj > lat))
      && decide (lon < (xj - xi) * (lat - yi) / (yj - yi) + xi) then
    !inside
  else
    inside

/-- The edges visited by the loop of `point_in_polygon`: index `i` paired
with index `j`, where `j` starts at `n - 1` and trails `i` by one
(generate_singapore_grid.py lines 112-119).  For `[v0, ..., vk]` this is
`[(v0, vk), (v1, v0), ..., (vk, vk-1)]`. -/
def edges : List Pt → List (Pt × Pt)
  | [] => []
  | p :: ps => List.zip (p :: ps) (List.getLastD ps p :: p :: ps)

/-- Ray-casting point-in-polygon test (generate_singapore_grid.py
lines 108-119). -/
def point_in_polygon (lat lon : ℚ) (polygon : List Pt) : Bool :=
  (edges polygon).foldl (crossStep lat lon) false

/-- `point_in_any_polygon` (generate_singapore_grid.py lines 122-127):
true iff the point is inside at least one polygon of the list. -/
def point_in_any_polygon (lat lon : ℚ) (polygons : List (List Pt)) : Bool :=
  polygons.any (fun poly => point_in_polygon lat lon poly)

/-- `MAIN_ISLAND` polygon (generate_singapore_grid.py lines 27-73). -/
def MAIN_ISLAND : List Pt :=
  [(1.250, 103.618), (1.265, 103.600), (1.290, 103.601), (1.310, 103.620),
   (1.320, 103.642),
   (1.355, 103.650), (1.385, 103.680), (1.415, 103.720), (1.430, 103.740),
   (1.445, 103.760), (1.450, 103.780),
   (1.455, 103.800), (1.460, 103.830), (1.465, 103.860), (1.460, 103.880),
   (1.455, 103.900), (1.450, 103.920),
   (1.420, 103.950), (1.400, 103.970), (1.385, 103.985), (1.370, 104.000),
   (1.360, 104.020), (1.345, 104.040), (1.330, 104.050),
   (1.310, 104.050), (1.300, 104.035), (1.290, 103.990), (1.280, 103.950),
   (1.270, 103.910), (1.265, 103.870), (1.260, 103.830), (1.265, 103.800),
   (1.270, 103.770),
   (1.275, 103.740), (1.270, 103.710), (1.260, 103.680), (1.255, 103.650),
   (1.250, 103.618)]

/-- `SENTOSA` polygon (generate_singapore_grid.py lines 75-80). -/
def SENTOSA : List Pt :=
  [(1.240, 103.825), (1.240, 103.860), (1.252, 103.860), (1.252, 103.825)]

/-- `JURONG_ISLAND` polygon (generate_singapore_grid.py lines 82-87). -/
def JURONG_ISLAND : List Pt :=
  [(1.255, 103.660), (1.255, 103.720), (1.280, 103.720), (1.280, 103.660)]

/-- `PULAU_UBIN` polygon (generate_singapore_grid.py lines 90-95). -/
def PULAU_UBIN : List Pt :=
  [(1.395, 103.955), (1.395, 103.990), (1.420, 103.990), (1.420, 103.955)]

/-- `PULAU_TEKONG` polygon (generate_singapore_grid.py lines 98-103). -/
def PULAU_TEKONG : List Pt :=
  [(1.380, 104.010), (1.380, 104.060), (1.420, 104.060), (1.420, 104.010)]

/-- `POLYGONS` (generate_singapore_grid.py line 105). -/
def POLYGONS : List (List Pt) :=
  [MAIN_ISLAND, SENTOSA, JURONG_ISLAND, PULAU_UBIN, PULAU_TEKONG]

/-- Bounding box of the scan (generate_singapore_grid.py line 147). -/
def lat_min : ℚ := 1.20
/-- Bounding box of the scan (generate_singapore_grid.py line 147). -/
def lat_max : ℚ := 1.47
/-- Bounding box of the scan (generate_singapore_grid.py line 148). -/
def lon_min : ℚ := 103.59
/-- Bounding box of the scan (generate_singapore_grid.py line 148). -/
def lon_max : ℚ := 104.07

/-- Python's `round(x, 6)` (generate_singapore_grid.py line 156): round to 6
decimal places.  (Python rounds exact halves to even; no quantity in this
development sits at an exact half, so round-half-up is used.) -/
def round6 (x : ℚ) : ℚ := ((round (x * 1000000) : ℤ) : ℚ) / 1000000

/-- The inner `while lon <= lon_max` loop of `generate_grid`
(generate_singapore_grid.py lines 153-157), with explicit fuel: `none` means
the loop did not finish within `fuel` iterations (so the Python loop, which
has no fuel bound, has not terminated yet at that depth). -/
def lonLoop (lat lon_step : ℚ) : Nat → ℚ → Option (List Pt)
  | 0, lon => if lon ≤ lon_max then none else some []
  | fuel + 1, lon =>
    if lon ≤ lon_max then
      (lonLoop lat lon_step fuel (lon + lon_step)).map (fun rest =>
        if point_in_any_polygon lat lon POLYGONS then
          (round6 lat, round6 lon) :: rest
        else
          rest)
    else
      some []

/-- The outer `while lat <= lat_max` loop of `generate_grid`
(generate_singapore_grid.py lines 151-158), with explicit fuel shared with
the inner loop. -/
def latLoop (lat_step lon_step : ℚ) : Nat → ℚ → Option (List Pt)
  | 0, lat => if lat ≤ lat_max then none else some []
  | fuel + 1, lat =>
    if lat ≤ lat_max then
      match lonLoop lat lon_step (fuel + 1) lon_min,
            latLoop lat_step lon_step fuel (lat + lat_step) with
      | some row, some rest => some (row ++ rest)
      | _, _ => none
    else
      some []

/-- `generate_grid` (generate_singapore_grid.py lines 130-160).
`cos_lat_center` stands for the library constant
`math.cos(math.radians(1.35))` (≈ 0.9997224), the one quantity of the
function that is not rational arithmetic; it is passed as a parameter. -/
def generate_grid (spacing_m : ℚ) (cos_lat_center : ℚ) (fuel : Nat) :
    Option (List Pt) :=
  let lat_step := spacing_m / 111320
  let lon_step := spacing_m / (111320 * cos_lat_center)
  latLoop lat_step lon_step fuel lat_min

/-- A rational approximation of `math.cos(math.radians(1.35))`
= 0.99972240044…, accurate to 8 decimal places; used for the concrete
evaluations below. -/
def cos_ref : ℚ := 9997224 / 10000000

/-- The grid generator terminates (its loops finish within some fuel). -/
def grid_terminates (spacing_m cos_lat_center : ℚ) : Prop :=
  ∃ fuel pts, generate_grid spacing_m cos_lat_center fuel = some pts

/-!  ## Helper lemmas -/

theorem strip_empty : strip "" = "" := rfl

theorem did_ne_tloc (s t : String) : "did:" ++ s ≠ "tloc:" ++ t := by
  intro h
  have h2 : ("did:" ++ s).data = ("tloc:" ++ t).data := by rw [h]
  rw [String.data_append, String.data_append] at h2
  exact absurd (List.cons.injEq .. ▸ h2).1 (by decide)

theorem did_append_inj (s t : String) (h : "did:" ++ s = "did:" ++ t) : s = t := by
  have h2 : ("did:" ++ s).data = ("did:" ++ t).data := by rw [h]
  rw [String.data_append, String.data_append] at h2
  exact String.ext (List.append_cancel_left h2)

theorem derive_key_did (r : Record) (h : strip r.data_id ≠ "") :
    derive_key r = some ("did:" ++ strip r.data_id) := by
  simp [derive_key, h]

theorem derive_key_tloc (r : Record) (h : strip r.data_id = "")
    (ht : strip r.title ≠ "") (ha : strip r.latitude ≠ "") (ho : strip r.longitude ≠ "") :
    derive_key r =
      some ("tloc:" ++ strip r.title ++ "|" ++ strip r.latitude ++ "|" ++ strip r.longitude) := by
  simp [derive_key, h, ht, ha, ho]

theorem derive_key_none_iff (r : Record) :
    derive_key r = none ↔
      strip r.data_id = "" ∧
        (strip r.title = "" ∨ strip r.latitude = "" ∨ strip r.longitude = "") := by
  by_cases h : strip r.data_id = "" <;>
    by_cases ht : strip r.title = "" <;>
      by_cases ha : strip r.latitude = "" <;>
        by_cases ho : strip r.longitude = "" <;>
          simp [derive_key, h, ht, ha, ho]

theorem foldl_dedup_kept (rs : List Record) : ∀ s : DedupState,
    (List.foldl (dedup_step false) s rs).kept_rows = s.kept_rows ++ keepFirst s.seen rs := by
  induction rs with
  | nil => intro s; simp [keepFirst]
  | cons r rs ih =>
    intro s
    simp only [List.foldl_cons]
    cases h : derive_key r with
    | none => simp [dedup_step, h, keepFirst, ih]
    | some k =>
      by_cases hk : k ∈ s.seen
      · simp [dedup_step, h, hk, keepFirst, ih]
      · simp [dedup_step, h, hk, keepFirst, ih]

theorem keepFirst_sublist (rs : List Record) : ∀ seen, List.Sublist (keepFirst seen rs) rs := by
  induction rs with
  | nil => intro seen; simp [keepFirst]
  | cons r rs ih =>
    intro seen
    cases h : derive_key r with
    | none => simpa [keepFirst, h] using (ih seen).cons r
    | some k =>
      by_cases hk : k ∈ seen
      · simpa [keepFirst, h, hk] using (ih seen).cons r
      · simpa [keepFirst, h, hk] using (ih (k :: seen)).cons₂ r

theorem keepFirst_mem (rs : List Record) : ∀ seen r, r ∈ keepFirst seen rs →
    ∃ k, derive_key r = some k ∧ k ∉ seen := by
  induction rs with
  | nil => intro seen r hr; simp [keepFirst] at hr
  | cons a rs ih =>
    intro seen r hr
    cases h : derive_key a with
    | none => exact ih seen r (by simpa [keepFirst, h] using hr)
    | some k =>
      by_cases hk : k ∈ seen
      · exact ih seen r (by simpa [keepFirst, h, hk] using hr)
      · rw [keepFirst, h] at hr
        simp only [if_neg hk, List.mem_cons] at hr
        rcases hr with rfl | hr
        · exact ⟨k, h, hk⟩
        · obtain ⟨k2, hk2, hk2s⟩ := ih (k :: seen) r hr
          exact ⟨k2, hk2, fun hmem => hk2s (List.mem_cons_of_mem k hmem)⟩

theorem keepFirst_pairwise (rs : List Record) : ∀ seen,
    (keepFirst seen rs).Pairwise (fun a b => derive_key a ≠ derive_key b) := by
  induction rs with
  | nil => intro seen; simp [keepFirst]
  | cons a rs ih =>
    intro seen
    cases h : derive_key a with
    | none => simpa [keepFirst, h] using ih seen
    | some k =>
      by_cases hk : k ∈ seen
      · simpa [keepFirst, h, hk] using ih seen
      · rw [keepFirst, h]
        simp only [if_neg hk]
        refine List.Pairwise.cons ?_ (ih (k :: seen))
        intro b hb
        obtain ⟨k2, hk2, hk2s⟩ := keepFirst_mem rs (k :: seen) b hb
        rw [h, hk2]
        intro hcontr
        apply hk2s
        have hkk : k = k2 := by injection hcontr
        rw [← hkk]
        exact List.mem_cons_self k seen

theorem foldl_all_new (rs : List Record) : ∀ s : DedupState,
    (∀ r ∈ rs, ∃ k, derive_key r = some k ∧ k ∉ s.seen) →
    rs.Pairwise (fun a b => derive_key a ≠ derive_key b) →
    (List.foldl (dedup_step false) s rs).rows_dup = s.rows_dup ∧
      (List.foldl (dedup_step false) s rs).rows_no_key = s.rows_no_key ∧
      (List.foldl (dedup_step false) s rs).kept_rows = s.kept_rows ++ rs := by
  induction rs with
  | nil => intro s _ _; simp
  | cons r rs ih =>
    intro s hnew hpw
    obtain ⟨k, hk, hkseen⟩ := hnew r (List.mem_cons_self r rs)
    simp only [List.foldl_cons]
    rw [show dedup_step false s r =
        { s with rows_total := s.rows_total + 1,
                 seen := k :: s.seen,
                 rows_kept := s.rows_kept + 1,
                 kept_rows := s.kept_rows ++ [r] } by simp [dedup_step, hk, hkseen]]
    obtain ⟨hineq, hpwtail⟩ := List.pairwise_cons.mp hpw
    have hnew2 : ∀ r2 ∈ rs, ∃ k2, derive_key r2 = some k2 ∧ k2 ∉ k :: s.seen := by
      intro r2 hr2
      obtain ⟨k2, hk2, hk2seen⟩ := hnew r2 (List.mem_cons_of_mem r hr2)
      refine ⟨k2, hk2, ?_⟩
      intro hmem
      rcases List.mem_cons.mp hmem with rfl | hmem2
      · exact hineq r2 hr2 (hk.trans hk2.symm)
      · exact hk2seen hmem2
    obtain ⟨h1, h2, h3⟩ :=
      ih { s with rows_total := s.rows_total + 1,
                  seen := k :: s.seen,
                  rows_kept := s.rows_kept + 1,
                  kept_rows := s.kept_rows ++ [r] } hnew2 hpwtail
    exact ⟨h1, h2, by rw [h3]; simp⟩

theorem mem_kept_isSome (so : Bool) (rs : List Record) : ∀ (s : DedupState) (r : Record),
    r ∈ (List.foldl (dedup_step so) s rs).kept_rows →
    r ∈ s.kept_rows ∨ (derive_key r).isSome := by
  induction rs with
  | nil => intro s r hr; exact Or.inl hr
  | cons a rs ih =>
    intro s r hr
    simp only [List.foldl_cons] at hr
    cases h : derive_key a with
    | none =>
      rw [show dedup_step so s a =
          { s with rows_total := s.rows_total + 1,
                   rows_no_key := s.rows_no_key + 1 } by simp [dedup_step, h]] at hr
      exact ih { s with rows_total := s.rows_total + 1,
                        rows_no_key := s.rows_no_key + 1 } r hr
    | some k =>
      by_cases hk : k ∈ s.seen
      · rw [show dedup_step so s a =
            { s with rows_total := s.rows_total + 1,
                     rows_dup := s.rows_dup + 1 } by simp [dedup_step, h, hk]] at hr
        exact ih { s with rows_total := s.rows_total + 1,
                          rows_dup := s.rows_dup + 1 } r hr
      · rw [show dedup_step so s a =
            { s with rows_total := s.rows_total + 1,
                     seen := k :: s.seen,
                     rows_kept := s.rows_kept + 1,
                     kept_rows := if so then s.kept_rows else s.kept_rows ++ [a] }
            by simp [dedup_step, h, hk]] at hr
        rcases ih { s with rows_total := s.rows_total + 1,
                           seen := k :: s.seen,
                           rows_kept := s.rows_kept + 1,
                           kept_rows := if so then s.kept_rows else s.kept_rows ++ [a] }
            r hr with hmem | hsome
        · simp only at hmem
          cases so with
          | true => exact Or.inl (by simpa using hmem)
          | false =>
            simp only [Bool.false_eq_true, if_false] at hmem
            rcases List.mem_append.mp hmem with hmem2 | hmem2
            · exact Or.inl hmem2
            · right
              rw [List.mem_singleton.mp hmem2, h]
              rfl
        · exact Or.inr hsome

theorem dedup_counter_inv (so : Bool) (rs : List Record) : ∀ s : DedupState,
    s.rows_total = s.rows_kept + s.rows_dup + s.rows_no_key →
    (so = false → s.kept_rows.length = s.rows_kept) →
    (List.foldl (dedup_step so) s rs).rows_total =
        (List.foldl (dedup_step so) s rs).rows_kept +
          (List.foldl (dedup_step so) s rs).rows_dup +
          (List.foldl (dedup_step so) s rs).rows_no_key ∧
      (so = false →
        (List.foldl (dedup_step so) s rs).kept_rows.length =
          (List.foldl (dedup_step so) s rs).rows_kept) := by
  induction rs with
  | nil => intro s h1 h2; exact ⟨h1, h2⟩
  | cons a rs ih =>
    intro s h1 h2
    simp only [List.foldl_cons]
    cases h : derive_key a with
    | none =>
      refine ih _ ?_ ?_
      · simp only [dedup_step, h]
        omega
      · intro hso
        simp only [dedup_step, h]
        exact h2 hso
    | some k =>
      by_cases hk : k ∈ s.seen
      · refine ih _ ?_ ?_
        · simp only [dedup_step, h, if_pos hk]
          omega
        · intro hso
          simp only [dedup_step, h, if_pos hk]
          exact h2 hso
      · refine ih _ ?_ ?_
        · simp only [dedup_step, h, if_neg hk]
          omega
        · intro hso
          simp only [dedup_step, h, if_neg hk, hso, Bool.false_eq_true, if_false,
            List.length_append, List.length_singleton, h2 hso]

theorem lonLoop_mem (lat st : ℚ) : ∀ (f : Nat) (lon : ℚ) (r : List Pt),
    lonLoop lat st f lon = some r → ∀ p ∈ r,
      ∃ lo, point_in_any_polygon lat lo POLYGONS = true ∧ p = (round6 lat, round6 lo) := by
  intro f
  induction f with
  | zero =>
    intro lon r hr p hp
    by_cases h : lon ≤ lon_max <;> simp [lonLoop, h] at hr
    subst hr
    simp at hp
  | succ f ih =>
    intro lon r hr p hp
    by_cases h : lon ≤ lon_max
    · rw [lonLoop, if_pos h] at hr
      rcases Option.map_eq_some'.mp hr with ⟨rest, hrest, hr2⟩
      subst hr2
      by_cases hc : point_in_any_polygon lat lon POLYGONS = true
      · rw [if_pos hc] at hp
        rcases List.mem_cons.mp hp with rfl | hp2
        · exact ⟨lon, hc, rfl⟩
        · exact ih (lon + st) rest hrest p hp2
      · rw [if_neg hc] at hp
        exact ih (lon + st) rest hrest p hp
    · rw [lonLoop, if_neg h] at hr
      obtain rfl : ([] : List Pt) = r := Option.some.inj hr
      simp at hp

theorem latLoop_mem (lat_step lon_step : ℚ) : ∀ (f : Nat) (lat : ℚ) (r : List Pt),
    latLoop lat_step lon_step f lat = some r → ∀ p ∈ r,
      ∃ la lo, point_in_any_polygon la lo POLYGONS = true ∧ p = (round6 la, round6 lo) := by
  intro f
  induction f with
  | zero =>
    intro lat r hr p hp
    by_cases h : lat ≤ lat_max <;> simp [latLoop, h] at hr
    subst hr
    simp at hp
  | succ f ih =>
    intro lat r hr p hp
    by_cases h : lat ≤ lat_max
    · rw [latLoop, if_pos h] at hr
      cases hrow : lonLoop lat lon_step (f + 1) lon_min with
      | none => rw [hrow] at hr; simp at hr
      | some row =>
        cases hrest : latLoop lat_step lon_step f (lat + lat_step) with
        | none => rw [hrow, hrest] at hr; simp at hr
        | some rest =>
          rw [hrow, hrest] at hr
          simp only [Option.some.injEq] at hr
          subst hr
          rcases List.mem_append.mp hp with hp2 | hp2
          · obtain ⟨lo, hc, hpe⟩ := lonLoop_mem lat lon_step (f + 1) lon_min row hrow p hp2
            exact ⟨lat, lo, hc, hpe⟩
          · exact ih (lat + lat_step) rest hrest p hp2
    · rw [latLoop, if_neg h] at hr
      obtain rfl : ([] : List Pt) = r := Option.some.inj hr
      simp at hp

theorem lonLoop_det (lat st : ℚ) : ∀ (f1 f2 : Nat) (lon : ℚ) (r1 r2 : List Pt),
    lonLoop lat st f1 lon = some r1 → lonLoop lat st f2 lon = some r2 → r1 = r2 := by
  intro f1
  induction f1 with
  | zero =>
    intro f2 lon r1 r2 h1 h2
    by_cases h : lon ≤ lon_max
    · rw [lonLoop, if_pos h] at h1
      exact absurd h1 (by simp)
    · rw [lonLoop, if_neg h] at h1
      obtain rfl : ([] : List Pt) = r1 := Option.some.inj h1
      cases f2 with
      | zero =>
        rw [lonLoop, if_neg h] at h2
        exact Option.some.inj h2
      | succ g =>
        rw [lonLoop, if_neg h] at h2
        exact Option.some.inj h2
  | succ f ih =>
    intro f2 lon r1 r2 h1 h2
    by_cases h : lon ≤ lon_max
    · rw [lonLoop, if_pos h] at h1
      rcases Option.map_eq_some'.mp h1 with ⟨rest1, hrest1, hr1⟩
      cases f2 with
      | zero =>
        rw [lonLoop, if_pos h] at h2
        exact absurd h2 (by simp)
      | succ g =>
        rw [lonLoop, if_pos h] at h2
        rcases Option.map_eq_some'.mp h2 with ⟨rest2, hrest2, hr2⟩
        rw [← hr1, ← hr2, ih g (lon + st) rest1 rest2 hrest1 hrest2]
    · rw [lonLoop, if_neg h] at h1
      obtain rfl : ([] : List Pt) = r1 := Option.some.inj h1
      cases f2 with
      | zero =>
        rw [lonLoop, if_neg h] at h2
        exact Option.some.inj h2
      | succ g =>
        rw [lonLoop, if_neg h] at h2
        exact Option.some.inj h2

theorem latLoop_det (lat_step lon_step : ℚ) : ∀ (f1 f2 : Nat) (lat : ℚ) (r1 r2 : List Pt),
    latLoop lat_step lon_step f1 lat = some r1 →
    latLoop lat_step lon_step f2 lat = some r2 → r1 = r2 := by
  intro f1
  induction f1 with
  | zero =>
    intro f2 lat r1 r2 h1 h2
    by_cases h : lat ≤ lat_max
    · rw [latLoop, if_pos h] at h1
      exact absurd h1 (by simp)
    · rw [latLoop, if_neg h] at h1
      obtain rfl : ([] : List Pt) = r1 := Option.some.inj h1
      cases f2 with
      | zero =>
        rw [latLoop, if_neg h] at h2
        exact Option.some.inj h2
      | succ g =>
        rw [latLoop, if_neg h] at h2
        exact Option.some.inj h2
  | succ f ih =>
    intro f2 lat r1 r2 h1 h2
    by_cases h : lat ≤ lat_max
    · rw [latLoop, if_pos h] at h1
      cases f2 with
      | zero =>
        rw [latLoop, if_pos h] at h2
        exact absurd h2 (by simp)
      | succ g =>
        rw [latLoop, if_pos h] at h2
        cases hrow1 : lonLoop lat lon_step (f + 1) lon_min with
        | none => rw [hrow1] at h1; simp at h1
        | some row1 =>
          cases hrest1 : latLoop lat_step lon_step f (lat + lat_step) with
          | none => rw [hrow1, hrest1] at h1; simp at h1
          | some rest1 =>
            cases hrow2 : lonLoop lat lon_step (g + 1) lon_min with
            | none => rw [hrow2] at h2; simp at h2
            | some row2 =>
              cases hrest2 : latLoop lat_step lon_step g (lat + lat_step) with
              | none => rw [hrow2, hrest2] at h2; simp at h2
              | some rest2 =>
                rw [hrow1, hrest1] at h1
                rw [hrow2, hrest2] at h2
                obtain rfl : row1 ++ rest1 = r1 := Option.some.inj h1
                obtain rfl : row2 ++ rest2 = r2 := Option.some.inj h2
                rw [lonLoop_det lat lon_step (f + 1) (g + 1) lon_min row1 row2 hrow1 hrow2,
                  ih g (lat + lat_step) rest1 rest2 hrest1 hrest2]
    · rw [latLoop, if_neg h] at h1
      obtain rfl : ([] : List Pt) = r1 := Option.some.inj h1
      cases f2 with
      | zero =>
        rw [latLoop, if_neg h] at h2
        exact Option.some.inj h2
      | succ g =>
        rw [latLoop, if_neg h] at h2
        exact Option.some.inj h2

theorem lonLoop_isSome (lat st : ℚ) : ∀ (f : Nat) (lon : ℚ),
    lon_max < lon + f * st → (lonLoop lat st f lon).isSome = true := by
  intro f
  induction f with
  | zero =>
    intro lon hlt
    rw [lonLoop, if_neg (by push_cast at hlt; linarith)]
    rfl
  | succ f ih =>
    intro lon hlt
    by_cases h : lon ≤ lon_max
    · rw [lonLoop, if_pos h]
      have hin : (lonLoop lat st f (lon + st)).isSome = true := by
        apply ih
        push_cast at hlt ⊢
        linarith
      obtain ⟨rest, hrest⟩ := Option.isSome_iff_exists.mp hin
      rw [hrest]
      rfl
    · rw [lonLoop, if_neg h]
      rfl

theorem latLoop_isSome (lat_step lon_step : ℚ) (hlon : 0 ≤ lon_step) (b : ℕ)
    (hb : lon_max < lon_min + b * lon_step) :
    ∀ (a : ℕ) (lat : ℚ), lat_max < lat + a * lat_step →
      ∀ f : ℕ, a + b ≤ f → (latLoop lat_step lon_step f lat).isSome = true := by
  intro a
  induction a with
  | zero =>
    intro lat hlat f _
    cases f with
    | zero =>
      rw [latLoop, if_neg (by push_cast at hlat; linarith)]
      rfl
    | succ g =>
      rw [latLoop, if_neg (by push_cast at hlat; linarith)]
      rfl
  | succ a ih =>
    intro lat hlat f hf
    cases f with
    | zero => omega
    | succ g =>
      by_cases h : lat ≤ lat_max
      · rw [latLoop, if_pos h]
        have hrow : (lonLoop lat lon_step (g + 1) lon_min).isSome = true := by
          apply lonLoop_isSome
          have hble : (b : ℚ) * lon_step ≤ ((g : ℚ) + 1) * lon_step := by
            apply mul_le_mul_of_nonneg_right _ hlon
            have : b ≤ g + 1 := by omega
            exact_mod_cast this
          push_cast
          linarith
        have hrest : (latLoop lat_step lon_step g (lat + lat_step)).isSome = true := by
          apply ih (lat + lat_step) _ g (by omega)
          push_cast at hlat ⊢
          linarith
        obtain ⟨row, hrow2⟩ := Option.isSome_iff_exists.mp hrow
        obtain ⟨rest, hrest2⟩ := Option.isSome_iff_exists.mp hrest
        rw [hrow2, hrest2]
        rfl
      · rw [latLoop, if_neg h]
        rfl

theorem lonLoop_zero_none (lat : ℚ) : ∀ (f : Nat) (lon : ℚ), lon ≤ lon_max →
    lonLoop lat 0 f lon = none := by
  intro f
  induction f with
  | zero =>
    intro lon h
    rw [lonLoop, if_pos h]
  | succ f ih =>
    intro lon h
    rw [lonLoop, if_pos h, add_zero, ih lon h]
    rfl

theorem generate_grid_zero_none (c : ℚ) : ∀ f, generate_grid 0 c f = none := by
  intro f
  have hstep : (0 : ℚ) / 111320 = 0 := by norm_num
  have hstep2 : (0 : ℚ) / (111320 * c) = 0 := by simp
  cases f with
  | zero =>
    rw [generate_grid]
    simp only [hstep, hstep2]
    rw [latLoop, if_pos (by norm_num [lat_min, lat_max])]
  | succ g =>
    rw [generate_grid]
    simp only [hstep, hstep2]
    rw [latLoop, if_pos (by norm_num [lat_min, lat_max]),
      lonLoop_zero_none lat_min (g + 1) lon_min (by norm_num [lon_min, lon_max])]

theorem data_did : "did:".data = ['d', 'i', 'd', ':'] := rfl

theorem data_tloc : "tloc:".data = ['t', 'l', 'o', 'c', ':'] := rfl

theorem did_ne_tloc_key (s t a o : String) :
    "did:" ++ s ≠ "tloc:" ++ t ++ "|" ++ a ++ "|" ++ o := by
  intro h
  have h2 := congrArg String.data h
  simp only [String.data_append, data_did, data_tloc, List.cons_append,
    List.append_assoc, List.nil_append] at h2
  exact absurd (List.cons.injEq .. ▸ h2).1 (by decide)

/-! ## Claim theorems -/

/-- C1 (corrected, amended part): dedup-key equality is tag-sensitive and
trim-normalizing — an identifier-tag key never equals a geometry-tag key
(or an absent key); records whose `data_id` agree after trimming (and are
nonempty) get equal keys; two identifier-tag keys are equal iff the trimmed
`data_id`s are equal; and componentwise-equal trimmed
(title, latitude, longitude) triples give equal keys.  (The converse of the
last part is false in the code — see the counterexample — because the
geometry key joins the three fields with `"|"`, which may itself occur in a
field.) -/
theorem C1_key_equality (r1 r2 : Record) :
    (strip r1.data_id ≠ "" → strip r2.data_id = "" →
      derive_key r1 ≠ derive_key r2) ∧
    (strip r1.data_id = strip r2.data_id → strip r1.data_id ≠ "" →
      derive_key r1 = derive_key r2) ∧
    (strip r1.data_id ≠ "" → strip r2.data_id ≠ "" →
      (derive_key r1 = derive_key r2 ↔ strip r1.data_id = strip r2.data_id)) ∧
    (strip r1.data_id = "" → strip r2.data_id = "" →
      strip r1.title = strip r2.title → strip r1.latitude = strip r2.latitude →
      strip r1.longitude = strip r2.longitude →
      derive_key r1 = derive_key r2) := by
  refine ⟨?_, ?_, ?_, ?_⟩
  · intro h1 h2
    rw [derive_key_did r1 h1]
    by_cases ht : strip r2.title = ""
    · rw [show derive_key r2 = none from
        (derive_key_none_iff r2).mpr ⟨h2, Or.inl ht⟩]
      simp
    · by_cases ha : strip r2.latitude = ""
      · rw [show derive_key r2 = none from
          (derive_key_none_iff r2).mpr ⟨h2, Or.inr (Or.inl ha)⟩]
        simp
      · by_cases ho : strip r2.longitude = ""
        · rw [show derive_key r2 = none from
            (derive_key_none_iff r2).mpr ⟨h2, Or.inr (Or.inr ho)⟩]
          simp
        · rw [derive_key_tloc r2 h2 ht ha ho]
          intro hcontr
          exact did_ne_tloc_key (strip r1.data_id) (strip r2.title)
            (strip r2.latitude) (strip r2.longitude) (Option.some.inj hcontr)
  · intro heq hne
    rw [derive_key_did r1 hne, derive_key_did r2 (heq ▸ hne), heq]
  · intro h1 h2
    rw [derive_key_did r1 h1, derive_key_did r2 h2]
    constructor
    · intro h
      exact did_append_inj _ _ (Option.some.inj h)
    · intro h
      rw [h]
  · intro h1 h2 ht ha ho
    simp only [derive_key, h1, h2, ht, ha, ho, ne_eq, not_true_eq_false, if_false]

/-- C1 counterexample: the claim "two geometry-tag keys are equal only when
their trimmed (title, latitude, longitude) triples are componentwise equal"
is false: the records (title `"a|b"`, latitude `"c"`) and (title `"a"`,
latitude `"b|c"`) — same longitude, empty `data_id` — receive the same key
`"tloc:a|b|c|d"` although their trimmed titles differ. -/
theorem C1_counterexample :
    derive_key { data_id := "", title := "a|b", latitude := "c", longitude := "d" } =
      derive_key { data_id := "", title := "a", latitude := "b|c", longitude := "d" } ∧
    strip ({ data_id := "", title := "a|b", latitude := "c", longitude := "d" : Record }).title ≠
      strip ({ data_id := "", title := "a", latitude := "b|c", longitude := "d" : Record }).title := by
  decide

/-- Witness for `C1_key_equality` at concrete records: an identifier-tag key
(from `data_id="X"`) differs from the geometry-tag key of a record whose
title is the same text `"X"`, and `data_id`s `"abc"` and `" abc "` get equal
keys. -/
theorem C1_key_equality_witness :
    derive_key { data_id := "X" } ≠
      derive_key { data_id := "", title := "X", latitude := "1.3", longitude := "103.8" } ∧
    derive_key { data_id := "abc" } = derive_key { data_id := " abc " } :=
  ⟨(C1_key_equality { data_id := "X" }
      { data_id := "", title := "X", latitude := "1.3", longitude := "103.8" }).1
      (by decide) (by decide),
   (C1_key_equality { data_id := "abc" } { data_id := " abc " }).2.1
      (by decide) (by decide)⟩

/-- C3 (confirmed): `dedup` retains exactly the first record of each
derivable key, in input order: the kept rows equal the spec-side
first-occurrence-wins function `keepFirst`, they form a sublist of the input
(original order), and on the three-row example D1, D2, D1 the output is
rows 1 and 2 with stats kept=2, duplicates=1, no_key=0. -/
theorem C3_first_occurrence_wins (records : List Record) :
    (dedup records false).kept_rows = keepFirst [] records ∧
    List.Sublist (dedup records false).kept_rows records ∧
    dedup [{ data_id := "D1", title := "A" }, { data_id := "D2", title := "B" },
           { data_id := "D1", title := "C" }] false =
      { seen := ["did:D2", "did:D1"], rows_total := 3, rows_kept := 2, rows_dup := 1,
        rows_no_key := 0,
        kept_rows := [{ data_id := "D1", title := "A" }, { data_id := "D2", title := "B" }] } := by
  have h1 : (dedup records false).kept_rows = keepFirst [] records := by
    rw [dedup, foldl_dedup_kept records initState]
    rfl
  refine ⟨h1, ?_, by decide⟩
  rw [h1]
  exact keepFirst_sublist records []

/-- C6 (confirmed): `dedup` is idempotent — a second pass over the kept
output of a first pass removes zero duplicates, drops zero no-key rows, and
keeps every row again. -/
theorem C6_idempotent (records : List Record) :
    (dedup (dedup records false).kept_rows false).rows_dup = 0 ∧
      (dedup (dedup records false).kept_rows false).rows_no_key = 0 ∧
      (dedup (dedup records false).kept_rows false).kept_rows =
        (dedup records false).kept_rows := by
  have hout : (dedup records false).kept_rows = keepFirst [] records := by
    rw [dedup, foldl_dedup_kept records initState]
    rfl
  have hnew : ∀ r ∈ (dedup records false).kept_rows,
      ∃ k, derive_key r = some k ∧ k ∉ initState.seen := by
    intro r hr
    rw [hout] at hr
    obtain ⟨k, hk, _⟩ := keepFirst_mem records [] r hr
    exact ⟨k, hk, by simp [initState]⟩
  have hpw : (dedup records false).kept_rows.Pairwise
      (fun a b => derive_key a ≠ derive_key b) := by
    rw [hout]
    exact keepFirst_pairwise records []
  obtain ⟨h1, h2, h3⟩ := foldl_all_new (dedup records false).kept_rows initState hnew hpw
  exact ⟨h1, h2, by rw [dedup, h3]; rfl⟩

/-- C9 (confirmed): a record with no derivable key — empty-after-trim
`data_id` and at least one of title/latitude/longitude empty after trim — is
characterized by `derive_key = none`; processing it only bumps the total and
no-key counters, leaving the seen set and the kept output unchanged; and
every row of the kept output has a derivable key. -/
theorem C9_no_key_dropped (r : Record) (s : DedupState) (so : Bool) (records : List Record) :
    (derive_key r = none ↔
      strip r.data_id = "" ∧
        (strip r.title = "" ∨ strip r.latitude = "" ∨ strip r.longitude = "")) ∧
    (derive_key r = none →
      dedup_step so s r =
        { s with rows_total := s.rows_total + 1, rows_no_key := s.rows_no_key + 1 }) ∧
    (r ∈ (dedup records so).kept_rows → (derive_key r).isSome = true) := by
  refine ⟨derive_key_none_iff r, ?_, ?_⟩
  · intro h
    simp [dedup_step, h]
  · intro hr
    rcases mem_kept_isSome so records initState r hr with hmem | hsome
    · exact absurd hmem (by simp [initState])
    · exact hsome

/-- Witness for `C9_no_key_dropped`: the all-empty record has no key and is
dropped with only total/no-key counters bumped; a record with `data_id="x"`
is kept and indeed has a derivable key. -/
theorem C9_no_key_dropped_witness :
    dedup_step false initState { data_id := "", title := "", latitude := "", longitude := "" } =
      { initState with rows_total := 1, rows_no_key := 1 } ∧
    (derive_key { data_id := "x" }).isSome = true :=
  ⟨(C9_no_key_dropped { data_id := "", title := "", latitude := "", longitude := "" }
      initState false []).2.1 (by decide),
   (C9_no_key_dropped { data_id := "x" } initState false [{ data_id := "x" }]).2.2
      (by decide)⟩

/-- C10 (confirmed): counter consistency of `dedup` — after processing any
prefix of the input (and hence at the end of the pass),
`rows_total = rows_kept + rows_dup + rows_no_key`, and when retention is
enabled (`stats_only = false`) the number of kept records equals
`rows_kept`. -/
theorem C10_counter_invariant (records : List Record) (so : Bool) (n : Nat) :
    ((List.foldl (dedup_step so) initState (records.take n)).rows_total =
        (List.foldl (dedup_step so) initState (records.take n)).rows_kept +
          (List.foldl (dedup_step so) initState (records.take n)).rows_dup +
          (List.foldl (dedup_step so) initState (records.take n)).rows_no_key) ∧
    (so = false →
      (List.foldl (dedup_step so) initState (records.take n)).kept_rows.length =
        (List.foldl (dedup_step so) initState (records.take n)).rows_kept) ∧
    ((dedup records so).rows_total =
        (dedup records so).rows_kept + (dedup records so).rows_dup +
          (dedup records so).rows_no_key) ∧
    (so = false →
      (dedup records so).kept_rows.length = (dedup records so).rows_kept) := by
  obtain ⟨h1, h2⟩ := dedup_counter_inv so (records.take n) initState rfl (fun _ => rfl)
  obtain ⟨h3, h4⟩ := dedup_counter_inv so records initState rfl (fun _ => rfl)
  exact ⟨h1, h2, h3, h4⟩

/-- Witness for `C10_counter_invariant` on a concrete 3-row input (one
duplicate, one no-key row), with retention enabled. -/
theorem C10_counter_invariant_witness :
    ((dedup [{ data_id := "D1" }, { data_id := "D1" }, { data_id := "" }] false).rows_total =
        (dedup [{ data_id := "D1" }, { data_id := "D1" }, { data_id := "" }] false).rows_kept +
          (dedup [{ data_id := "D1" }, { data_id := "D1" }, { data_id := "" }] false).rows_dup +
          (dedup [{ data_id := "D1" }, { data_id := "D1" }, { data_id := "" }] false).rows_no_key) ∧
    (dedup [{ data_id := "D1" }, { data_id := "D1" }, { data_id := "" }] false).kept_rows.length =
      (dedup [{ data_id := "D1" }, { data_id := "D1" }, { data_id := "" }] false).rows_kept :=
  ⟨(C10_counter_invariant [{ data_id := "D1" }, { data_id := "D1" }, { data_id := "" }]
      false 3).2.2.1,
   (C10_counter_invariant [{ data_id := "D1" }, { data_id := "D1" }, { data_id := "" }]
      false 3).2.2.2 rfl⟩

/-- C4 (confirmed): degenerate horizontal edges (equal vertex latitudes)
never toggle the inside flag; the interpolation divisor `yj - yi` is nonzero
whenever the crossing pre-condition `(yi > lat) != (yj > lat)` holds (so the
division is only reached with a nonzero denominator); and
`point_in_polygon` is total — it returns a boolean on every input, including
polygons with degenerate horizontal edges. -/
theorem C4_horizontal_edge_safe (lat lon : ℚ) (e : Pt × Pt) (inside : Bool)
    (polygon : List Pt) :
    (e.1.1 = e.2.1 → crossStep lat lon inside e = inside) ∧
    ((decide (e.1.1 > lat) != decide (e.2.1 > lat)) = true → e.2.1 - e.1.1 ≠ 0) ∧
    (point_in_polygon lat lon polygon = true ∨ point_in_polygon lat lon polygon = false) := by
  refine ⟨?_, ?_, ?_⟩
  · intro h
    simp [crossStep, h]
  · intro h heq
    have hyy : e.2.1 = e.1.1 := by linarith
    rw [hyy] at h
    simp at h
  · cases point_in_polygon lat lon polygon
    · exact Or.inr rfl
    · exact Or.inl rfl

/-- Witness for `C4_horizontal_edge_safe`: a concrete horizontal edge at
latitude 1 leaves the flag unchanged, and a concrete crossing edge (from
latitude 1 down to -1, point latitude 0) has nonzero latitude delta. -/
theorem C4_horizontal_edge_safe_witness :
    crossStep 0 0 true ((1, 2), (1, 5)) = true ∧ ((-1 : ℚ) - 1 ≠ 0) :=
  ⟨(C4_horizontal_edge_safe 0 0 ((1, 2), (1, 5)) true []).1 rfl,
   (C4_horizontal_edge_safe 0 0 ((1, 2), (-1, 5)) true []).2.1 (by decide)⟩

/-- C5 (confirmed): for every axis-aligned rectangle polygon on four corner
vertices — the corners of the rectangle `[a,b] × [c,d]` (`a < b`, `c < d`)
listed in any ring order, that is any of the four cyclic rotations of either
orientation — `point_in_polygon` returns `true` on every point strictly
inside and `false` on every point strictly outside the closed rectangle
(boundary points are unconstrained). -/
theorem C5_rectangle (a b c d lat lon : ℚ) (hab : a < b) (hcd : c < d)
    (poly : List Pt)
    (hpoly : poly ∈ [
      [(a, c), (a, d), (b, d), (b, c)], [(a, d), (b, d), (b, c), (a, c)],
      [(b, d), (b, c), (a, c), (a, d)], [(b, c), (a, c), (a, d), (b, d)],
      [(a, c), (b, c), (b, d), (a, d)], [(b, c), (b, d), (a, d), (a, c)],
      [(b, d), (a, d), (a, c), (b, c)], [(a, d), (a, c), (b, c), (b, d)]]) :
    ((a < lat ∧ lat < b ∧ c < lon ∧ lon < d) →
      point_in_polygon lat lon poly = true) ∧
    (¬ (a ≤ lat ∧ lat ≤ b ∧ c ≤ lon ∧ lon ≤ d) →
      point_in_polygon lat lon poly = false) := by
  have hE : ∀ p q r s : Pt, edges [p, q, r, s] = [(p, s), (q, p), (r, q), (s, r)] :=
    fun p q r s => rfl
  simp only [List.mem_cons, List.not_mem_nil, or_false] at hpoly
  rcases hpoly with rfl | rfl | rfl | rfl | rfl | rfl | rfl | rfl <;>
    refine ⟨fun hin => ?_, fun hout => ?_⟩ <;>
      first
        | (obtain ⟨h1, h2, h3, h4⟩ := hin
           rw [point_in_polygon, hE]
           simp [List.foldl_cons, List.foldl_nil, crossStep, sub_self, zero_mul,
             zero_div, zero_add, h1, h2, h3, h4, not_lt.mpr h1.le, not_lt.mpr h3.le])
        | (rw [point_in_polygon, hE]
           by_cases h1 : a > lat <;> by_cases h2 : b > lat <;>
             by_cases h3 : lon < c <;> by_cases h4 : lon < d <;>
               simp [List.foldl_cons, List.foldl_nil, crossStep, sub_self, zero_mul,
                 zero_div, zero_add, h1, h2, h3, h4] <;>
               exact absurd ⟨by linarith, by linarith, by linarith, by linarith⟩ hout)

/-- Witness for `C5_rectangle` on the unit rectangle, exercising both
orientations: the centre (1/2, 1/2) is reported inside the clockwise listing,
the point (2, 2) outside the counter-clockwise listing. -/
theorem C5_rectangle_witness :
    point_in_polygon (1/2) (1/2) [(0, 0), (1, 0), (1, 1), (0, 1)] = true ∧
    point_in_polygon 2 2 [(0, 0), (0, 1), (1, 1), (1, 0)] = false :=
  ⟨(C5_rectangle 0 1 0 1 (1/2) (1/2) (by norm_num) (by norm_num)
      [(0, 0), (1, 0), (1, 1), (0, 1)] (by simp)).1 (by norm_num),
   (C5_rectangle 0 1 0 1 2 2 (by norm_num) (by norm_num)
      [(0, 0), (0, 1), (1, 1), (1, 0)] (by simp)).2 (by norm_num)⟩

/-- C2 (corrected, amended part): every point of `generate_grid`'s output is
the 6-decimal rounding of a candidate point that passed
`point_in_any_polygon` — the containment test is applied to the candidate
before rounding.  (The rounded point itself may fall outside every polygon;
see the counterexample.) -/
theorem C2_pre_round_containment (spacing_m cosc : ℚ) (fuel : Nat) (pts : List Pt)
    (h : generate_grid spacing_m cosc fuel = some pts) :
    ∀ p ∈ pts, ∃ la lo, point_in_any_polygon la lo POLYGONS = true ∧
      p = (round6 la, round6 lo) := by
  intro p hp
  rw [generate_grid] at h
  exact latLoop_mem _ _ fuel lat_min pts h p hp

set_option maxRecDepth 100000 in
/-- C2 counterexample: at spacing 5788.6 m the generator returns (fuel 32
suffices), and its output contains a point — (1.252, 103.85007), the
rounding of the kept candidate (1.2519996…, 103.8500703…) just inside
SENTOSA's north edge — for which `point_in_any_polygon` is false: rounding
to 6 decimals pushed it onto the polygon's boundary latitude, which
ray-casting classifies as outside. -/
theorem C2_counterexample :
    (generate_grid (57886/10) cos_ref 32).isSome = true ∧
    ¬ (∀ p ∈ (generate_grid (57886/10) cos_ref 32).getD [],
        point_in_any_polygon p.1 p.2 POLYGONS = true) := by
  constructor
  · with_unfolding_all decide
  · with_unfolding_all decide

/-- An option that is `isSome` equals `some` of its `getD` value. -/
theorem option_eq_some_getD {α : Type} (o : Option α) (d : α) (h : o.isSome = true) :
    o = some (o.getD d) := by
  cases o with
  | none => simp at h
  | some v => rfl

/-- The `headD` of a nonempty list is a member of it. -/
theorem headD_mem_of_ne_nil {α : Type} (l : List α) (d : α) (h : l ≠ []) :
    l.headD d ∈ l := by
  cases l with
  | nil => exact absurd rfl h
  | cons a t => exact List.mem_cons_self a t

set_option maxRecDepth 100000 in
/-- Witness for `C2_pre_round_containment` at spacing 20000 m, fuel 8: the
output's first point is the rounding of a candidate that passes the
containment test. -/
theorem C2_pre_round_containment_witness :
    ∃ la lo, point_in_any_polygon la lo POLYGONS = true ∧
      ((generate_grid 20000 cos_ref 8).getD []).headD ((0 : ℚ), (0 : ℚ)) =
        (round6 la, round6 lo) :=
  C2_pre_round_containment 20000 cos_ref 8 ((generate_grid 20000 cos_ref 8).getD [])
    (option_eq_some_getD (generate_grid 20000 cos_ref 8) []
      (by with_unfolding_all decide))
    (((generate_grid 20000 cos_ref 8).getD []).headD ((0 : ℚ), (0 : ℚ)))
    (headD_mem_of_ne_nil ((generate_grid 20000 cos_ref 8).getD []) ((0 : ℚ), (0 : ℚ))
      (by with_unfolding_all decide))

/-- C7 (confirmed): `generate_grid` is deterministic — it is a pure function
of its arguments (no hidden state in the embedding), and any two terminating
runs with equal spacing (regardless of the fuel bound used) return the same
point sequence in the same order. -/
theorem C7_deterministic (s1 s2 c : ℚ) (f1 f2 : Nat) (p1 p2 : List Pt)
    (hs : s1 = s2)
    (h1 : generate_grid s1 c f1 = some p1) (h2 : generate_grid s2 c f2 = some p2) :
    p1 = p2 := by
  subst hs
  rw [generate_grid] at h1 h2
  exact latLoop_det _ _ f1 f2 lat_min p1 p2 h1 h2

set_option maxRecDepth 100000 in
/-- Witness for `C7_deterministic`: two runs at spacing 20000 m with
different fuel bounds (8 and 9) return the same sequence. -/
theorem C7_deterministic_witness :
    (generate_grid 20000 cos_ref 8).getD [] = (generate_grid 20000 cos_ref 9).getD [] :=
  C7_deterministic 20000 20000 cos_ref 8 9
    ((generate_grid 20000 cos_ref 8).getD []) ((generate_grid 20000 cos_ref 9).getD [])
    rfl
    (option_eq_some_getD (generate_grid 20000 cos_ref 8) []
      (by with_unfolding_all decide))
    (option_eq_some_getD (generate_grid 20000 cos_ref 9) []
      (by with_unfolding_all decide))

/-- C8 (corrected, amended part): for every positive spacing (and positive
cosine factor) the doubly nested scan of `generate_grid` performs finitely
many iterations — some fuel bound suffices and the generator returns a
finite point list.  (For spacing 0 the scan never terminates; see the
counterexample.) -/
theorem C8_terminates_pos (spacing_m cosc : ℚ) (hs : 0 < spacing_m) (hc : 0 < cosc) :
    grid_terminates spacing_m cosc := by
  have hlat : 0 < spacing_m / 111320 := by positivity
  have hlon : 0 < spacing_m / (111320 * cosc) := by positivity
  obtain ⟨b, hb⟩ := exists_nat_gt ((lon_max - lon_min) / (spacing_m / (111320 * cosc)))
  have hb2 : lon_max < lon_min + b * (spacing_m / (111320 * cosc)) := by
    rw [div_lt_iff₀ hlon] at hb
    linarith
  obtain ⟨a, ha⟩ := exists_nat_gt ((lat_max - lat_min) / (spacing_m / 111320))
  have ha2 : lat_max < lat_min + a * (spacing_m / 111320) := by
    rw [div_lt_iff₀ hlat] at ha
    linarith
  have hsome := latLoop_isSome (spacing_m / 111320) (spacing_m / (111320 * cosc))
    hlon.le b hb2 a lat_min ha2 (a + b) le_rfl
  obtain ⟨pts, hpts⟩ := Option.isSome_iff_exists.mp hsome
  exact ⟨a + b, pts, hpts⟩

/-- C8 counterexample: at spacing 0 both loop steps are 0, the scan never
advances past the bounding box, and `generate_grid` does not terminate at
any fuel bound — the claim "terminates on every input" is false. -/
theorem C8_counterexample : ¬ grid_terminates 0 cos_ref := by
  rintro ⟨f, pts, hpts⟩
  rw [generate_grid_zero_none cos_ref f] at hpts
  exact Option.noConfusion hpts

/-- Witness for `C8_terminates_pos` at the CLI default spacing 250 m. -/
theorem C8_terminates_pos_witness : grid_terminates 250 cos_ref :=
  C8_terminates_pos 250 cos_ref (by norm_num) (by norm_num [cos_ref])
